import Mathlib

/-!
Verification development for the builder-generator repository
(src/src/builderGenerator.ts).

The embedding models the ts-morph `Type` values the generator inspects as a
plain inductive `Ty` carrying exactly the observations the source makes
(`getText`, the eight primitive predicates, `getArrayElementType`, `isUnion`,
`getUnionTypes`, `getProperties`), and translates the three functions
`generateBuilderFunc`, `builderParameterTypeMapper` and
`capitalizeFirstLetter` from the source.  The `console.warn` side effect is
modelled as a list of diagnostic strings returned alongside the result, and
the `return {}` skip paths are modelled as `none`.
-/

/-- A resolved type as observed through the ts-morph API calls the source
makes.  `arrayElem` models `getArrayElementType()`: it is `some` exactly when
`isArray()` holds (a ts-morph guarantee, which is why the source's non-null
assertion `getArrayElementType()!` is safe).  `properties` models
`getProperties()` as (name, resolved type) pairs, where the type component is
the result of `getTypeAtLocation(getValueDeclarationOrThrow())` on the
property. -/
inductive Ty : Type where
  | mk (text : String)
       (isStringF isNumberF isLiteralF isBooleanF isUndefinedF isNullF isAnyF isEnumF : Bool)
       (arrayElem : Option Ty)
       (isUnionF : Bool)
       (unionTypes : List Ty)
       (properties : List (String × Ty)) : Ty

/-- `Type.getText()`. -/
def Ty.getText : Ty → String
  | .mk text _ _ _ _ _ _ _ _ _ _ _ _ => text

/-- `Type.isString()`. -/
def Ty.isString : Ty → Bool
  | .mk _ b _ _ _ _ _ _ _ _ _ _ _ => b

/-- `Type.isNumber()`. -/
def Ty.isNumber : Ty → Bool
  | .mk _ _ b _ _ _ _ _ _ _ _ _ _ => b

/-- `Type.isLiteral()`. -/
def Ty.isLiteral : Ty → Bool
  | .mk _ _ _ b _ _ _ _ _ _ _ _ _ => b

/-- `Type.isBoolean()`. -/
def Ty.isBoolean : Ty → Bool
  | .mk _ _ _ _ b _ _ _ _ _ _ _ _ => b

/-- `Type.isUndefined()`. -/
def Ty.isUndefined : Ty → Bool
  | .mk _ _ _ _ _ b _ _ _ _ _ _ _ => b

/-- `Type.isNull()`. -/
def Ty.isNull : Ty → Bool
  | .mk _ _ _ _ _ _ b _ _ _ _ _ _ => b

/-- `Type.isAny()`. -/
def Ty.isAny : Ty → Bool
  | .mk _ _ _ _ _ _ _ b _ _ _ _ _ => b

/-- `Type.isEnum()`. -/
def Ty.isEnum : Ty → Bool
  | .mk _ _ _ _ _ _ _ _ b _ _ _ _ => b

/-- `Type.getArrayElementType()` (`none` when the type is not an array). -/
def Ty.getArrayElementType : Ty → Option Ty
  | .mk _ _ _ _ _ _ _ _ _ e _ _ _ => e

/-- `Type.isArray()`: holds exactly when an array element type exists. -/
def Ty.isArray (t : Ty) : Bool := t.getArrayElementType.isSome

/-- `Type.isUnion()`. -/
def Ty.isUnion : Ty → Bool
  | .mk _ _ _ _ _ _ _ _ _ _ u _ _ => u

/-- `Type.getUnionTypes()` (the source only calls this under `isUnion()`). -/
def Ty.getUnionTypes : Ty → List Ty
  | .mk _ _ _ _ _ _ _ _ _ _ _ ts _ => ts

/-- `Type.getProperties()` together with each property's resolved type. -/
def Ty.getProperties : Ty → List (String × Ty)
  | .mk _ _ _ _ _ _ _ _ _ _ _ _ ps => ps

/-- A top-level declaration handed to `generateBuilderFunc`: the source only
uses `typeAlias.getName()` and `typeAlias.getType()`. -/
structure Decl : Type where
  name : String
  type : Ty

/-! ## The regex replacement of `builderParameterTypeMapper`

The source rewrites module-qualified references with
`.replace(/import\("[^"]*"\)/gi, 'SchemaTypes')`: every (case-insensitive)
occurrence of the literal text `import("`, followed by any run of non-quote
characters, a closing quote and a closing parenthesis, is replaced by
`SchemaTypes`; scanning is left-to-right and non-overlapping, and continues
after the replaced text.  We model this as a character-list scanner.  The
recursion is bounded by a fuel argument equal to the input length; the lemma
`replaceImportsGo_fuel_irrel` below shows any sufficient fuel computes the
same result, so the fuel is only a bookkeeping device for structural
recursion. -/

/-- The fixed pattern head `import("` as a character list. -/
def importPat : List Char := ['i', 'm', 'p', 'o', 'r', 't', '(', '\x22']

/-- Case-insensitive pattern stripping: `stripPrefixCI ps l` returns the rest
of `l` after the pattern `ps`, matching each character up to `toLower` (the
regex has the `i` flag). -/
def stripPrefixCI : List Char → List Char → Option (List Char)
  | [], l => some l
  | _ :: _, [] => none
  | p :: ps, c :: cs => if c.toLower = p.toLower then stripPrefixCI ps cs else none

/-- Scans `[^"]*"`: consumes characters up to and including the first double
quote, returning the rest; fails when no quote follows. -/
def scanModulePath : List Char → Option (List Char)
  | [] => none
  | c :: cs => if c = '\x22' then some cs else scanModulePath cs

/-- One attempted match of the regex `import\("[^"]*"\)` at the head of the
input, returning the suffix after the match: strip `import("`, scan the
module path through its closing quote, then require a closing parenthesis. -/
def matchImport (l : List Char) : Option (List Char) :=
  (stripPrefixCI importPat l).bind (fun r1 =>
    (scanModulePath r1).bind (fun r2 =>
      match r2 with
      | c :: r3 => if c = ')' then some r3 else none
      | [] => none))

/-- Global left-to-right replacement of the pattern by `SchemaTypes`,
fuel-bounded (fuel at least the input length suffices; see
`replaceImportsGo_fuel_irrel`). -/
def replaceImportsGo : Nat → List Char → List Char
  | 0, l => l
  | _ + 1, [] => []
  | fuel + 1, c :: rest =>
    match matchImport (c :: rest) with
    | some r => "SchemaTypes".toList ++ replaceImportsGo fuel r
    | none => c :: replaceImportsGo fuel rest

/-- `.replace(/import\("[^"]*"\)/gi, 'SchemaTypes')` from the source
(line 242). -/
def replaceImports (s : String) : String :=
  ⟨replaceImportsGo s.toList.length s.toList⟩

/-- `capitalizeFirstLetter` (source lines 251-253):
`string.charAt(0).toUpperCase() + string.slice(1)`. -/
def capitalizeFirstLetter (s : String) : String :=
  (s.take 1).toUpper ++ s.drop 1

/-- The primitive classification of `builderParameterTypeMapper` (source
lines 229-238): the disjunction of the eight fixed predicates. -/
def tyIsPrimitive (resultType : Ty) : Bool :=
  [resultType.isString, resultType.isNumber, resultType.isLiteral,
    resultType.isBoolean, resultType.isUndefined, resultType.isNull,
    resultType.isAny, resultType.isEnum].any id

/-- `builderParameterTypeMapper` (source lines 224-249).  When the type is an
array the mapper descends once into the element type (`getArrayElementType()!`
is modelled by the `match`, total because `isArray` holds exactly when the
element exists); the (possibly descended) type's text is import-rewritten,
wrapped in `DeepPartial<...>` unless primitive, and suffixed with `[]` when
the original was an array. -/
def builderParameterTypeMapper (subType : Ty) : String :=
  let isArray := subType.isArray
  let resultType :=
    match subType.getArrayElementType with
    | some e => e
    | none => subType
  let isPrimitive := tyIsPrimitive resultType
  let resultTypeStr := replaceImports resultType.getText
  let resultTypeStr :=
    if isPrimitive then resultTypeStr else "DeepPartial<" ++ resultTypeStr ++ ">"
  if isArray then resultTypeStr ++ "[]" else resultTypeStr

/-- The post-processing of the mapped constituent renderings (source
lines 148-152): drop renderings equal to `false`, widen renderings equal to
`true` to `boolean`. -/
def normalizeSetterTypes (ts : List String) : List String :=
  (ts.filter (fun t => t ≠ "false")).map (fun t => if t = "true" then "boolean" else t)

/-- The accepted parameter type of one setter (source lines 146-152):
decompose the field type into union constituents (a non-union is a
one-element list), map each through `builderParameterTypeMapper`, normalize,
and join with `' | '`. -/
def setterParamType (type : Ty) : String :=
  let unionTypes := if type.isUnion then type.getUnionTypes else [type]
  String.intercalate " | " (normalizeSetterTypes (unionTypes.map builderParameterTypeMapper))

/-! ## The builder specification structures

These mirror the ts-morph structure objects the source builds
(`MethodDeclarationStructure`, `FunctionDeclarationStructure`,
`ClassDeclarationStructure` and their parameter/constructor parts), keeping
exactly the fields the source populates. -/

/-- A parameter structure: `{ name, type, hasQuestionToken, initializer,
isReadonly, scope }` (only the fields the source sets). -/
structure ParamSpec : Type where
  name : String
  type : Option String
  hasQuestionToken : Bool
  initializer : Option String
  isReadonly : Bool
  scope : Option String
deriving DecidableEq

/-- A method structure as the source builds it: name, return type, type
parameters, parameters, scope and statements (single-string statements are
modelled as one-element lists). -/
structure MethodSpec : Type where
  name : String
  returnType : Option String
  typeParameters : List String
  parameters : List ParamSpec
  scope : Option String
  statements : List String
deriving DecidableEq

/-- A constructor structure (the generated class has one, whose single
parameter declares the private readonly accumulator). -/
structure CtorSpec : Type where
  parameters : List ParamSpec
deriving DecidableEq

/-- A class structure: name, constructors, methods, export flag. -/
structure ClassSpec : Type where
  name : String
  ctors : List CtorSpec
  methods : List MethodSpec
  isExported : Bool
deriving DecidableEq

/-- A function structure: the generated factory function. -/
structure FunctionSpec : Type where
  name : String
  isExported : Bool
  typeParameters : List String
  returnType : Option String
  parameters : List ParamSpec
  statements : List String
deriving DecidableEq

/-- The non-skip result of `generateBuilderFunc`: `{ builderFunc, classObj }`. -/
structure GenResult : Type where
  builderFunc : FunctionSpec
  classObj : ClassSpec
deriving DecidableEq

/-- One setter method structure (source lines 154-162): named `with` plus the
capitalized field name, type parameter `P extends <accepted type>`, one
parameter `val : P`, returning the builder class, assigning onto the
accumulator and returning `this`. -/
def mkSetterMethod (className : String) (prop : String × Ty) : MethodSpec :=
  ⟨"with" ++ capitalizeFirstLetter prop.1,
   some className,
   ["P extends " ++ setterParamType prop.2],
   [⟨"val", some "P", false, none, false, none⟩],
   some "public",
   ["this.obj." ++ prop.1 ++ " = val;", "return this;"]⟩

/-- The tag-injection method structure (source lines 166-175): stamps the
accumulator's `__typename` with the declaration's own name under a
`@ts-ignore`. -/
def includeTypenameMethod (typeName : String) : MethodSpec :=
  ⟨"includeTypename", none, [], [], some "public",
   ["// @ts-ignore",
    "this.obj.__typename = \x27" ++ typeName ++ "\x27;",
    "return this;"]⟩

/-- The terminal accessor method structure (source lines 177-183): returns the
accumulator cast to the full declared shape. -/
def getMethod (objName typeName : String) : MethodSpec :=
  ⟨"get", some ("SchemaTypes." ++ typeName), [], [], some "public",
   ["return this." ++ objName ++ " as SchemaTypes." ++ typeName ++ ";"]⟩

/-- `generateBuilderFunc` (source lines 117-222).  The two `return {}` skip
paths are `none`; the `console.warn` on the union path is modelled as the
returned diagnostic list.  The per-property loop with its `continue` on
`__typename` is the `filterMap`. -/
def generateBuilderFunc (typeAlias : Decl) : Option GenResult × List String :=
  let rootType := typeAlias.type
  let props := rootType.getProperties
  if props.length ≤ 0 then
    (none, [])
  else if rootType.isUnion then
    (none, ["Skipped type generation for union: " ++ typeAlias.name])
  else
    let objName := "obj"
    let typeName := typeAlias.name
    let className := typeName ++ "Builder"
    let setterMethods := props.filterMap (fun prop =>
      if prop.1 = "__typename" then none else some (mkSetterMethod className prop))
    let methods := setterMethods ++ [includeTypenameMethod typeName, getMethod objName typeName]
    let builderFunc : FunctionSpec :=
      ⟨"a" ++ className, true,
       ["O extends DeepPartial<SchemaTypes." ++ typeName ++ "> = \x7b\x7d"],
       some className,
       [⟨"baseObj", some "O", true, none, false, none⟩],
       ["return new " ++ className ++ "(baseObj ?? \x7b\x7d);"]⟩
    let classObj : ClassSpec :=
      ⟨className,
       [⟨[⟨objName, none, false,
           some ("\x7b\x7d as DeepPartial<SchemaTypes." ++ typeName ++ ">"),
           true, some "private"⟩]⟩],
       methods, true⟩
    (some ⟨builderFunc, classObj⟩, [])

/-! ## The extractor (`generateBuilders`, source lines 41-75)

The enumeration facility itself (`sourceFile.getTypeAliases()` /
`sourceFile.getInterfaces()`) is ts-morph, not repository code. -/

/-- A top-level statement of the input source file. -/
inductive TopStmt : Type where
  | aliasDecl (d : Decl)
  | interfaceDecl (d : Decl)
  | otherStmt

/-- Modelled from the spec: ts-morph `sourceFile.getTypeAliases()` — the
repository only calls it — returns every top-level type-alias declaration in
file order. -/
def getTypeAliases (sf : List TopStmt) : List Decl :=
  sf.filterMap (fun s =>
    match s with
    | .aliasDecl d => some d
    | _ => none)

/-- Modelled from the spec: ts-morph `sourceFile.getInterfaces()` — the
repository only calls it — returns every top-level interface declaration in
file order. -/
def getInterfaces (sf : List TopStmt) : List Decl :=
  sf.filterMap (fun s =>
    match s with
    | .interfaceDecl d => some d
    | _ => none)

/-- The declaration sequence `generateBuilders` processes (source lines 41-42
and the two loops at lines 58-75): all aliases, then all interfaces. -/
def extractDecls (sf : List TopStmt) : List Decl :=
  getTypeAliases sf ++ getInterfaces sf

/-! ## Runtime model of the accumulator

The generated methods mutate a single JS object `this.obj`.  We model the
object as an association list and a property write as replacing any previous
binding of the key. -/

/-- A JS property write `obj[key] = v`: afterwards `key` reads back `v` and
other keys are unchanged. -/
def assignField (obj : List (String × String)) (key v : String) : List (String × String) :=
  (key, v) :: obj.filter (fun kv => kv.1 ≠ key)

/-- Model of executing the emitted tag-injection statement
`this.obj.__typename = '<name>';` (the second statement of
`includeTypenameMethod`) on an accumulator state. -/
def runIncludeTypename (typeName : String) (obj : List (String × String)) :
    List (String × String) :=
  assignField obj "__typename" typeName

/-! ## Concrete inputs used by witnesses and counterexamples -/

/-- The resolved `string` type. -/
def stringTy : Ty := Ty.mk "string" true false false false false false false false none false [] []

/-- The resolved `number` type. -/
def numberTy : Ty := Ty.mk "number" false true false false false false false false none false [] []

/-- The boolean literal type `true` (a literal type; its text is `true`). -/
def trueLitTy : Ty := Ty.mk "true" false false true false false false false false none false [] []

/-- The boolean literal type `false` (a literal type; its text is `false`). -/
def falseLitTy : Ty := Ty.mk "false" false false true false false false false false none false [] []

/-- The declared type `boolean` as the compiler resolves it: a union of the
two boolean literal types (this is why a `boolean` field reaches the
`true`/`false` normalization at all). -/
def boolUnionTy : Ty :=
  Ty.mk "boolean" false false false true false false false false none true [falseLitTy, trueLitTy] []

/-- A function type: none of the eight primitive predicates hold. -/
def fnTy : Ty := Ty.mk "() => void" false false false false false false false false none false [] []

/-- A module-qualified composite reference, as ts-morph renders it. -/
def fooRefTy : Ty :=
  Ty.mk "import(\x22/schema\x22).Foo" false false false false false false false false none false [] []

/-- The array type `string[]`. -/
def stringArrTy : Ty :=
  Ty.mk "string[]" false false false false false false false false (some stringTy) false [] []

/-- An object root type with the given properties. -/
def objTy (props : List (String × Ty)) : Ty :=
  Ty.mk "" false false false false false false false false none false [] props

/-- A union root type (two object constituents) with the given common
properties. -/
def unionRootTy (props : List (String × Ty)) : Ty :=
  Ty.mk "A | B" false false false false false false false false none true [] props

/-- A three-field declaration whose middle field is the discriminator tag. -/
def personDecl : Decl :=
  ⟨"Person", objTy [("name", stringTy), ("__typename", stringTy), ("age", numberTy)]⟩

/-- A union-rooted declaration with no common properties. -/
def unionEmptyDecl : Decl := ⟨"U0", unionRootTy []⟩

/-- A union-rooted declaration with one common property. -/
def unionOneFieldDecl : Decl := ⟨"U1", unionRootTy [("a", stringTy)]⟩

/-- A declaration whose single field has the literal type `false`. -/
def falseFieldDecl : Decl := ⟨"X", objTy [("flag", falseLitTy)]⟩

/-- A declaration used by the extractor witness. -/
def aliasADecl : Decl := ⟨"A", objTy [("a", stringTy)]⟩

/-- A declaration used by the extractor witness. -/
def ifaceBDecl : Decl := ⟨"B", objTy [("b", stringTy)]⟩

/-- A source file whose interface precedes its type alias. -/
def ifaceFirstSrc : List TopStmt :=
  [TopStmt.interfaceDecl ifaceBDecl, TopStmt.otherStmt, TopStmt.aliasDecl aliasADecl]

example : builderParameterTypeMapper stringTy = "string" := by decide
example : builderParameterTypeMapper fnTy = "DeepPartial<() => void>" := by decide
example : builderParameterTypeMapper fooRefTy = "DeepPartial<SchemaTypes.Foo>" := by decide
example : builderParameterTypeMapper stringArrTy = "string[]" := by decide
example : setterParamType boolUnionTy = "boolean" := by decide
example : setterParamType falseLitTy = "" := by decide

/-! ## Helper lemmas -/

/-- A successful pattern strip consumes exactly the pattern's length. -/
lemma stripPrefixCI_some_length : ∀ (ps l r : List Char),
    stripPrefixCI ps l = some r → r.length + ps.length = l.length := by
  intro ps
  induction ps with
  | nil =>
    intro l r h
    simp only [stripPrefixCI, Option.some.injEq] at h
    subst h
    simp
  | cons p ps ih =>
    intro l r h
    cases l with
    | nil => simp [stripPrefixCI] at h
    | cons c cs =>
      simp only [stripPrefixCI] at h
      split at h
      · have := ih cs r h
        simp only [List.length_cons]
        omega
      · exact absurd h (by simp)

/-- A successful module-path scan consumes at least one character. -/
lemma scanModulePath_some_length : ∀ (l r : List Char),
    scanModulePath l = some r → r.length < l.length := by
  intro l
  induction l with
  | nil => intro r h; simp [scanModulePath] at h
  | cons c cs ih =>
    intro r h
    simp only [scanModulePath] at h
    split at h
    · simp only [Option.some.injEq] at h
      subst h
      simp
    · have := ih r h
      simp only [List.length_cons]
      omega

/-- A successful match consumes at least one character. -/
lemma matchImport_some_length : ∀ (l r : List Char),
    matchImport l = some r → r.length < l.length := by
  intro l r h
  unfold matchImport at h
  cases h1 : stripPrefixCI importPat l with
  | none => simp [h1] at h
  | some r1 =>
    simp only [h1, Option.some_bind] at h
    cases h2 : scanModulePath r1 with
    | none => simp [h2] at h
    | some r2 =>
      simp only [h2, Option.some_bind] at h
      have hl1 := stripPrefixCI_some_length importPat l r1 h1
      have hl2 := scanModulePath_some_length r1 r2 h2
      cases r2 with
      | nil => simp at h
      | cons c r3 =>
        by_cases hc : c = ')'
        · subst hc
          simp at h
          subst h
          simp only [importPat, List.length_cons, List.length_nil] at hl1
          simp only [List.length_cons] at hl2
          omega
        · simp [hc] at h

/-- Step lemma: when the pattern matches at the head, one step replaces it. -/
lemma replaceImportsGo_cons_match (fuel : Nat) (c : Char) (rest r : List Char)
    (h : matchImport (c :: rest) = some r) :
    replaceImportsGo (fuel + 1) (c :: rest) = "SchemaTypes".toList ++ replaceImportsGo fuel r := by
  simp [replaceImportsGo, h]

/-- Step lemma: when the pattern does not match at the head, one step copies
the head character. -/
lemma replaceImportsGo_cons_nomatch (fuel : Nat) (c : Char) (rest : List Char)
    (h : matchImport (c :: rest) = none) :
    replaceImportsGo (fuel + 1) (c :: rest) = c :: replaceImportsGo fuel rest := by
  simp [replaceImportsGo, h]

/-- Any fuel at least the input length computes the same replacement, so the
fuel in `replaceImports` is immaterial. -/
lemma replaceImportsGo_fuel_irrel : ∀ (f1 : Nat) (l : List Char) (f2 : Nat),
    l.length ≤ f1 → l.length ≤ f2 → replaceImportsGo f1 l = replaceImportsGo f2 l := by
  intro f1
  induction f1 with
  | zero =>
    intro l f2 h1 _
    have : l = [] := List.length_eq_zero.mp (Nat.le_zero.mp h1)
    subst this
    cases f2 <;> rfl
  | succ f1 ih =>
    intro l f2 h1 h2
    cases l with
    | nil => cases f2 <;> rfl
    | cons c cs =>
      simp only [List.length_cons] at h1 h2
      cases f2 with
      | zero => omega
      | succ g =>
        cases hm : matchImport (c :: cs) with
        | none =>
          rw [replaceImportsGo_cons_nomatch f1 c cs hm,
              replaceImportsGo_cons_nomatch g c cs hm,
              ih cs g (by omega) (by omega)]
        | some r =>
          have hr := matchImport_some_length (c :: cs) r hm
          simp only [List.length_cons] at hr
          rw [replaceImportsGo_cons_match f1 c cs r hm,
              replaceImportsGo_cons_match g c cs r hm,
              ih r g (by omega) (by omega)]

/-- The case-insensitive strip succeeds on a literal copy of the pattern. -/
lemma stripPrefixCI_self : ∀ (ps l : List Char), stripPrefixCI ps (ps ++ l) = some l := by
  intro ps
  induction ps with
  | nil => intro l; rfl
  | cons p ps ih =>
    intro l
    simp only [List.cons_append, stripPrefixCI, if_pos rfl]
    exact ih l

/-- The module-path scan stops at the first double quote. -/
lemma scanModulePath_append : ∀ (m l : List Char), '\x22' ∉ m →
    scanModulePath (m ++ '\x22' :: l) = some l := by
  intro m
  induction m with
  | nil => intro l _; simp [scanModulePath]
  | cons c cs ih =>
    intro l hm
    have hc : ¬(c = '\x22') := fun e => hm (by simp [e])
    simp only [List.cons_append, scanModulePath, if_neg hc]
    exact ih l (fun hx => hm (List.mem_cons_of_mem _ hx))

/-- A literal occurrence of `import("<path>")` at the head of the input
matches, leaving the suffix. -/
lemma matchImport_pattern (m rest : List Char) (hm : '\x22' ∉ m) :
    matchImport (importPat ++ (m ++ '\x22' :: ')' :: rest)) = some rest := by
  unfold matchImport
  rw [stripPrefixCI_self]
  simp only [Option.some_bind]
  rw [scanModulePath_append m _ hm]
  simp

/-- Replacing over an input that starts with a literal `import("<path>")`
occurrence rewrites it to `SchemaTypes` and continues after it. -/
lemma replaceImportsGo_pattern (fuel : Nat) (m rest : List Char)
    (hf : (importPat ++ (m ++ '\x22' :: ')' :: rest)).length ≤ fuel)
    (hm : '\x22' ∉ m) :
    replaceImportsGo fuel (importPat ++ (m ++ '\x22' :: ')' :: rest)) =
      "SchemaTypes".toList ++ replaceImportsGo rest.length rest := by
  cases fuel with
  | zero =>
    exfalso
    simp only [importPat, List.length_append, List.length_cons, List.length_nil] at hf
    omega
  | succ f =>
    have e : importPat ++ (m ++ '\x22' :: ')' :: rest)
        = 'i' :: (['m', 'p', 'o', 'r', 't', '(', '\x22'] ++ (m ++ '\x22' :: ')' :: rest)) := rfl
    have hmatch := matchImport_pattern m rest hm
    rw [e] at hmatch
    rw [e, replaceImportsGo_cons_match f 'i' _ rest hmatch]
    congr 1
    apply replaceImportsGo_fuel_irrel
    · simp only [importPat, List.length_append, List.length_cons, List.length_nil] at hf
      omega
    · exact Nat.le_refl _

/-- The import-rewrite of the source's regex replacement, at string level:
an occurrence of a module-qualified prefix `import("<path>")` becomes the
namespace alias `SchemaTypes`, and replacement continues on the rest. -/
lemma replaceImports_rewrite (m rest : String) (hm : '\x22' ∉ m.toList) :
    replaceImports ("import(\x22" ++ m ++ "\x22)" ++ rest) = "SchemaTypes" ++ replaceImports rest := by
  have h1 : ("import(\x22" : String).data = importPat := by decide
  have h2 : ("\x22)" : String).data = ['\x22', ')'] := by decide
  have hdata : (("import(\x22" ++ m ++ "\x22)" ++ rest) : String).data
      = importPat ++ (m.data ++ '\x22' :: ')' :: rest.data) := by
    simp only [String.data_append, h1, h2, List.append_assoc, List.cons_append,
      List.nil_append]
    rfl
  have hm' : '\x22' ∉ m.data := hm
  apply String.ext
  calc (replaceImports ("import(\x22" ++ m ++ "\x22)" ++ rest)).data
      = replaceImportsGo (("import(\x22" ++ m ++ "\x22)" ++ rest) : String).data.length
          (("import(\x22" ++ m ++ "\x22)" ++ rest) : String).data := rfl
    _ = replaceImportsGo (importPat ++ (m.data ++ '\x22' :: ')' :: rest.data)).length
          (importPat ++ (m.data ++ '\x22' :: ')' :: rest.data)) := by rw [hdata]
    _ = "SchemaTypes".toList ++ replaceImportsGo rest.data.length rest.data :=
          replaceImportsGo_pattern _ m.data rest.data (Nat.le_refl _) hm'
    _ = ("SchemaTypes" ++ replaceImports rest).data := by
          rw [String.data_append]
          rfl

/-- The per-property `filterMap` of `generateBuilderFunc` is one setter per
property whose name is not the discriminator tag, in property order. -/
lemma setter_filterMap (className : String) (props : List (String × Ty)) :
    props.filterMap (fun prop =>
        if prop.1 = "__typename" then none else some (mkSetterMethod className prop))
      = (props.filter (fun prop => prop.1 ≠ "__typename")).map (mkSetterMethod className) := by
  induction props with
  | nil => rfl
  | cons a l ih =>
    by_cases h : a.1 = "__typename"
    · simp [List.filterMap_cons, List.filter_cons, h, ih]
    · simp [List.filterMap_cons, List.filter_cons, h, ih]

/-- Full characterization of the non-skip branch of `generateBuilderFunc`. -/
lemma generateBuilderFunc_eq_some (d : Decl) (hp : d.type.getProperties ≠ [])
    (hu : d.type.isUnion = false) :
    generateBuilderFunc d =
      (some ⟨⟨"a" ++ (d.name ++ "Builder"), true,
        ["O extends DeepPartial<SchemaTypes." ++ d.name ++ "> = \x7b\x7d"],
        some (d.name ++ "Builder"),
        [⟨"baseObj", some "O", true, none, false, none⟩],
        ["return new " ++ (d.name ++ "Builder") ++ "(baseObj ?? \x7b\x7d);"]⟩,
       ⟨d.name ++ "Builder",
        [⟨[⟨"obj", none, false,
            some ("\x7b\x7d as DeepPartial<SchemaTypes." ++ d.name ++ ">"),
            true, some "private"⟩]⟩],
        (d.type.getProperties.filter (fun prop => prop.1 ≠ "__typename")).map
            (mkSetterMethod (d.name ++ "Builder"))
          ++ [includeTypenameMethod d.name, getMethod "obj" d.name],
        true⟩⟩, []) := by
  have hlen : ¬(d.type.getProperties.length ≤ 0) := by
    cases h : d.type.getProperties with
    | nil => exact absurd h hp
    | cons a l => simp [h]
  simp only [generateBuilderFunc]
  rw [if_neg hlen, hu]
  simp [setter_filterMap]

/-- Conditions forced by a non-skip result. -/
lemma gen_some_conditions (d : Decl) (hne : (generateBuilderFunc d).1 ≠ none) :
    d.type.getProperties ≠ [] ∧ d.type.isUnion = false := by
  constructor
  · intro h
    exact hne (by simp [generateBuilderFunc, h])
  · cases hu : d.type.isUnion with
    | false => rfl
    | true =>
      exfalso
      apply hne
      rcases h : d.type.getProperties with _ | ⟨a, l⟩
      · simp [generateBuilderFunc, h]
      · simp [generateBuilderFunc, h, hu]

/-- C1 (amended): synthesis skips exactly when the declaration has zero
fields or its root type is a union; a zero-field skip emits no diagnostic;
a union-rooted declaration that has at least one field emits exactly one
warning diagnostic naming the declaration.  (A union-rooted declaration with
zero fields hits the zero-field check first and emits no diagnostic.) -/
theorem c1_union_skip_diagnostics : ∀ d : Decl,
    ((generateBuilderFunc d).1 = none ↔
      (d.type.getProperties = [] ∨ d.type.isUnion = true))
  ∧ (d.type.getProperties = [] → (generateBuilderFunc d).2 = [])
  ∧ (d.type.isUnion = true → d.type.getProperties ≠ [] →
      (generateBuilderFunc d).2 = ["Skipped type generation for union: " ++ d.name]) := by
  intro d
  rcases hp : d.type.getProperties with _ | ⟨p, ps⟩
  · refine ⟨?_, ?_, ?_⟩
    · simp [generateBuilderFunc, hp]
    · intro _
      simp [generateBuilderFunc, hp]
    · intro _ hne
      exact absurd rfl hne
  · cases hu : d.type.isUnion with
    | true =>
      refine ⟨?_, ?_, ?_⟩
      · simp [generateBuilderFunc, hp, hu]
      · intro h
        exact (List.cons_ne_nil p ps h).elim
      · intro _ _
        simp [generateBuilderFunc, hp, hu]
    | false =>
      refine ⟨?_, ?_, ?_⟩
      · simp [generateBuilderFunc, hp, hu]
      · intro h
        exact (List.cons_ne_nil p ps h).elim
      · intro h _
        exact Bool.noConfusion h

/-- C1 witness: a union-rooted declaration with one field is skipped with
exactly the one warning naming it. -/
theorem c1_union_skip_diagnostics_witness :
    (generateBuilderFunc unionOneFieldDecl).2
      = ["Skipped type generation for union: " ++ unionOneFieldDecl.name] :=
  (c1_union_skip_diagnostics unionOneFieldDecl).2.2 rfl
    (by simp [unionOneFieldDecl, unionRootTy, Ty.getProperties])

/-- C1 counterexample: a union-rooted declaration with zero fields is
skipped with no diagnostic at all, refuting "every declaration whose root
type is a union emits exactly one warning diagnostic". -/
theorem c1_zero_field_union_no_diagnostic :
    unionEmptyDecl.type.isUnion = true
  ∧ (generateBuilderFunc unionEmptyDecl).1 = none
  ∧ (generateBuilderFunc unionEmptyDecl).2.length = 0 := by decide

/-- C2 (amended): synthesis is total — every declaration yields either a
skip or a specification, never a hard failure — and a field type that matches
none of the eight primitive predicates is treated as composite: its
import-rewritten raw textual rendering wrapped in the recursive-partial
marker, not used bare. -/
theorem c2_unclassified_composite : ∀ t : Ty,
    tyIsPrimitive t = false →
    t.getArrayElementType = none →
    builderParameterTypeMapper t = "DeepPartial<" ++ replaceImports t.getText ++ ">" := by
  intro t hprim h
  simp only [builderParameterTypeMapper, Ty.isArray, h]
  simp [hprim]

/-- C2 witness: the function type matches no primitive predicate and is
rendered as composite. -/
theorem c2_unclassified_composite_witness :
    builderParameterTypeMapper fnTy = "DeepPartial<" ++ replaceImports fnTy.getText ++ ">" :=
  c2_unclassified_composite fnTy (by decide) rfl

/-- C2 counterexample: a field type that matches none of the primitive
predicates (a function type) is not rendered as its bare raw text: the code
wraps it in the recursive-partial marker, refuting "falls back to using its
raw textual rendering as a primitive (used as-is, bare)". -/
theorem c2_unclassified_not_bare :
    tyIsPrimitive fnTy = false
  ∧ fnTy.getText = "() => void"
  ∧ builderParameterTypeMapper fnTy = "DeepPartial<() => void>"
  ∧ builderParameterTypeMapper fnTy ≠ fnTy.getText := by decide

/-- C3: every non-skipped declaration's specification consists of exactly one
setter per non-tag field, in the declaration's field order, followed by the
two fixed methods (tag-injection, then terminal accessor); hence the method
count is the non-tag field count plus two. -/
theorem c3_setter_count_order : ∀ d : Decl, (generateBuilderFunc d).1 ≠ none →
    ((generateBuilderFunc d).1.map (fun g => g.classObj.methods))
      = some ((d.type.getProperties.filter (fun p => p.1 ≠ "__typename")).map
            (mkSetterMethod (d.name ++ "Builder"))
          ++ [includeTypenameMethod d.name, getMethod "obj" d.name])
  ∧ ((generateBuilderFunc d).1.map (fun g => g.classObj.methods.length))
      = some ((d.type.getProperties.filter (fun p => p.1 ≠ "__typename")).length + 2) := by
  intro d hne
  obtain ⟨hp, hu⟩ := gen_some_conditions d hne
  rw [generateBuilderFunc_eq_some d hp hu]
  constructor
  · simp
  · simp

/-- C3 witness: a three-field declaration whose middle field is the tag gets
two setters plus the two fixed methods. -/
theorem c3_setter_count_order_witness :
    ((generateBuilderFunc personDecl).1.map (fun g => g.classObj.methods))
      = some ((personDecl.type.getProperties.filter (fun p => p.1 ≠ "__typename")).map
            (mkSetterMethod (personDecl.name ++ "Builder"))
          ++ [includeTypenameMethod personDecl.name, getMethod "obj" personDecl.name])
  ∧ ((generateBuilderFunc personDecl).1.map (fun g => g.classObj.methods.length))
      = some ((personDecl.type.getProperties.filter (fun p => p.1 ≠ "__typename")).length + 2) :=
  c3_setter_count_order personDecl (by decide)

/-- C4 (amended): in the accepted-type pipeline a constituent rendering equal
to `true` is widened to `boolean`, but a constituent rendering equal to
`false` is dropped from the union entirely rather than widened; the setter's
accepted type is the `' | '`-join of the normalized renderings. -/
theorem c4_true_widened_false_dropped : ∀ (pre post : List String),
    normalizeSetterTypes (pre ++ "true" :: post)
      = normalizeSetterTypes pre ++ "boolean" :: normalizeSetterTypes post
  ∧ normalizeSetterTypes (pre ++ "false" :: post)
      = normalizeSetterTypes pre ++ normalizeSetterTypes post
  ∧ ∀ ty : Ty, setterParamType ty = String.intercalate " | "
      (normalizeSetterTypes ((if ty.isUnion then ty.getUnionTypes else [ty]).map
        builderParameterTypeMapper)) := by
  intro pre post
  refine ⟨?_, ?_, fun ty => rfl⟩
  · simp [normalizeSetterTypes, List.filter_append, List.map_append]
  · simp [normalizeSetterTypes, List.filter_append, List.map_append]

/-- C4 counterexample: a field constituent whose rendering is the bare
literal `false` is not widened to `boolean`: it is filtered out, leaving an
empty accepted type. -/
theorem c4_false_not_widened :
    builderParameterTypeMapper falseLitTy = "false"
  ∧ setterParamType falseLitTy = ""
  ∧ setterParamType falseLitTy ≠ "boolean" := by decide

/-- C5: when a field's declared type decomposes into two constituents
rendering `true` and `false` (the compiler's view of `true | false`, that is,
of `boolean`), the accepted parameter type collapses to exactly `boolean`,
in either constituent order, with no duplicate and no stray `false`. -/
theorem c5_true_false_union_boolean : ∀ (u tl fl : Ty),
    u.isUnion = true →
    builderParameterTypeMapper tl = "true" →
    builderParameterTypeMapper fl = "false" →
    (u.getUnionTypes = [fl, tl] ∨ u.getUnionTypes = [tl, fl]) →
    setterParamType u = "boolean" := by
  intro u tl fl hu ht hf hor
  simp only [setterParamType, hu, if_true]
  cases hor with
  | inl h =>
    rw [h]
    simp only [List.map_cons, List.map_nil, ht, hf]
    decide
  | inr h =>
    rw [h]
    simp only [List.map_cons, List.map_nil, ht, hf]
    decide

/-- C5 witness: the resolved `boolean` union of the two literal types yields
exactly `boolean`. -/
theorem c5_true_false_union_boolean_witness : setterParamType boolUnionTy = "boolean" :=
  c5_true_false_union_boolean boolUnionTy trueLitTy falseLitTy rfl (by decide) (by decide)
    (Or.inl rfl)

/-- C6: a non-array field constituent is rendered as its textual form with
module-qualified references rewritten to the `SchemaTypes` namespace alias,
wrapped in `DeepPartial<...>` exactly when the fixed primitive predicate set
does not classify it primitive; and the rewrite replaces a module-qualified
occurrence `import("<path>")` by the single alias `SchemaTypes`. -/
theorem c6_nonarray_rendering : ∀ t : Ty, t.getArrayElementType = none →
    (builderParameterTypeMapper t =
      if tyIsPrimitive t = true then replaceImports t.getText
      else "DeepPartial<" ++ replaceImports t.getText ++ ">")
  ∧ ∀ (m rest : String), '\x22' ∉ m.toList →
      replaceImports ("import(\x22" ++ m ++ "\x22)" ++ rest)
        = "SchemaTypes" ++ replaceImports rest := by
  intro t h
  refine ⟨?_, fun m rest hm => replaceImports_rewrite m rest hm⟩
  simp only [builderParameterTypeMapper, Ty.isArray, h]
  simp

/-- C6 witness: a module-qualified composite reference is rewritten to the
alias and wrapped; the rewrite equation holds at the concrete path. -/
theorem c6_nonarray_rendering_witness :
    (builderParameterTypeMapper fooRefTy =
      if tyIsPrimitive fooRefTy = true then replaceImports fooRefTy.getText
      else "DeepPartial<" ++ replaceImports fooRefTy.getText ++ ">")
  ∧ replaceImports ("import(\x22" ++ "/schema" ++ "\x22)" ++ ".Foo")
      = "SchemaTypes" ++ replaceImports ".Foo" :=
  ⟨(c6_nonarray_rendering fooRefTy rfl).1,
   (c6_nonarray_rendering fooRefTy rfl).2 "/schema" ".Foo" (by decide)⟩

/-- C7: an array field constituent is mapped by descending exactly once into
its element type, rendering the element by the same primitive/composite rule,
and suffixing the array marker `[]`. -/
theorem c7_array_rendering : ∀ (t e : Ty), t.getArrayElementType = some e →
    builderParameterTypeMapper t =
      (if tyIsPrimitive e = true then replaceImports e.getText
       else "DeepPartial<" ++ replaceImports e.getText ++ ">") ++ "[]" := by
  intro t e h
  simp only [builderParameterTypeMapper, Ty.isArray, h]
  simp

/-- C7 witness: `string[]` maps to the bare element rendering suffixed with
the array marker. -/
theorem c7_array_rendering_witness :
    builderParameterTypeMapper stringArrTy =
      (if tyIsPrimitive stringTy = true then replaceImports stringTy.getText
       else "DeepPartial<" ++ replaceImports stringTy.getText ++ ">") ++ "[]" :=
  c7_array_rendering stringArrTy stringTy rfl

/-- C8: the processed declaration sequence is all top-level type aliases in
file order followed by all top-level interfaces in file order — every alias
keeps its alias-pass index, every interface is placed after all aliases,
regardless of relative source position — and an empty source yields an empty
sequence. -/
theorem c8_aliases_before_interfaces : ∀ (sf : List TopStmt),
    extractDecls sf = getTypeAliases sf ++ getInterfaces sf
  ∧ extractDecls [] = []
  ∧ ∀ (i j : Nat) (a b : Decl),
      (getTypeAliases sf).get? i = some a →
      (getInterfaces sf).get? j = some b →
      (extractDecls sf).get? i = some a
      ∧ (extractDecls sf).get? ((getTypeAliases sf).length + j) = some b
      ∧ i < (getTypeAliases sf).length + j := by
  intro sf
  refine ⟨rfl, rfl, ?_⟩
  intro i j a b ha hb
  have hi : i < (getTypeAliases sf).length := by
    rcases Nat.lt_or_ge i (getTypeAliases sf).length with h | h
    · exact h
    · rw [List.get?_eq_none.mpr h] at ha
      cases ha
  refine ⟨?_, ?_, ?_⟩
  · unfold extractDecls
    rw [List.get?_append hi]
    exact ha
  · unfold extractDecls
    rw [List.get?_append_right (Nat.le_add_right _ _), Nat.add_sub_cancel_left]
    exact hb
  · omega

/-- C8 witness: with an interface first in the file and an alias after it,
the alias still precedes the interface in the processed sequence. -/
theorem c8_aliases_before_interfaces_witness :
    (extractDecls ifaceFirstSrc).get? 0 = some aliasADecl
  ∧ (extractDecls ifaceFirstSrc).get? ((getTypeAliases ifaceFirstSrc).length + 0)
      = some ifaceBDecl
  ∧ 0 < (getTypeAliases ifaceFirstSrc).length + 0 :=
  (c8_aliases_before_interfaces ifaceFirstSrc).2.2 0 0 aliasADecl ifaceBDecl rfl rfl

/-- C9: a field named `__typename` never receives a setter (the setter list
is exactly one setter per field whose name differs from the tag, in order),
and executing the tag-injection assignment stamps the accumulator's
discriminator field with the declaration's own name regardless of the
accumulator's prior state. -/
theorem c9_typename_tag : ∀ d : Decl, (generateBuilderFunc d).1 ≠ none →
    ((generateBuilderFunc d).1.map (fun g => g.classObj.methods.map (fun m => m.name)))
      = some ((d.type.getProperties.filter (fun p => p.1 ≠ "__typename")).map
            (fun p => "with" ++ capitalizeFirstLetter p.1) ++ ["includeTypename", "get"])
  ∧ ∀ (obj : List (String × String)),
      List.lookup "__typename" (runIncludeTypename d.name obj) = some d.name := by
  intro d hne
  obtain ⟨hp, hu⟩ := gen_some_conditions d hne
  constructor
  · rw [generateBuilderFunc_eq_some d hp hu]
    simp [mkSetterMethod, includeTypenameMethod, getMethod, List.map_map, Function.comp]
  · intro obj
    simp [runIncludeTypename, assignField, List.lookup]

/-- C9 witness: the tag field of the three-field declaration gets no setter,
and the tag injection overwrites a pre-existing discriminator value. -/
theorem c9_typename_tag_witness :
    ((generateBuilderFunc personDecl).1.map (fun g => g.classObj.methods.map (fun m => m.name)))
      = some ((personDecl.type.getProperties.filter (fun p => p.1 ≠ "__typename")).map
            (fun p => "with" ++ capitalizeFirstLetter p.1) ++ ["includeTypename", "get"])
  ∧ List.lookup "__typename"
        (runIncludeTypename personDecl.name [("__typename", "Old"), ("age", "3")])
      = some personDecl.name :=
  ⟨(c9_typename_tag personDecl (by decide)).1,
   (c9_typename_tag personDecl (by decide)).2 [("__typename", "Old"), ("age", "3")]⟩

/-- C10: when every constituent rendering of a field's type is the literal
text `false`, all alternatives are filtered out, the accepted parameter type
is the empty string, and the setter is still emitted, with the degenerate
type constraint `P extends ` (empty accepted type), alongside the two fixed
methods. -/
theorem c10_all_false_empty : ∀ (declName fieldName : String) (ty : Ty),
    ((if ty.isUnion then ty.getUnionTypes else [ty]).map builderParameterTypeMapper).all
        (fun r => r = "false") = true →
    fieldName ≠ "__typename" →
    setterParamType ty = ""
  ∧ ((generateBuilderFunc ⟨declName, objTy [(fieldName, ty)]⟩).1.map
        (fun g => g.classObj.methods.map (fun m => (m.name, m.typeParameters))))
      = some [("with" ++ capitalizeFirstLetter fieldName, ["P extends "]),
              ("includeTypename", []), ("get", [])] := by
  intro declName fieldName ty hall hfn
  have hempty : setterParamType ty = "" := by
    simp only [setterParamType, normalizeSetterTypes]
    have hnil : ((if ty.isUnion then ty.getUnionTypes else [ty]).map
        builderParameterTypeMapper).filter (fun t => t ≠ "false") = [] := by
      rw [List.filter_eq_nil]
      intro a ha
      have h := List.all_eq_true.mp hall a ha
      simp only [decide_eq_true_eq] at h
      simp [h]
    rw [hnil]
    rfl
  refine ⟨hempty, ?_⟩
  have hp : (Decl.mk declName (objTy [(fieldName, ty)])).type.getProperties ≠ [] := by
    simp [objTy, Ty.getProperties]
  have hu : (Decl.mk declName (objTy [(fieldName, ty)])).type.isUnion = false := by
    simp [objTy, Ty.isUnion]
  rw [generateBuilderFunc_eq_some _ hp hu]
  simp only [objTy, Ty.getProperties, List.filter_cons, List.filter_nil]
  simp [mkSetterMethod, includeTypenameMethod, getMethod, hfn, hempty]

/-- C10 witness: a field of the single literal type `false` yields an empty
accepted type and still gets its setter. -/
theorem c10_all_false_empty_witness :
    setterParamType falseLitTy = ""
  ∧ ((generateBuilderFunc ⟨"X", objTy [("flag", falseLitTy)]⟩).1.map
        (fun g => g.classObj.methods.map (fun m => (m.name, m.typeParameters))))
      = some [("with" ++ capitalizeFirstLetter "flag", ["P extends "]),
              ("includeTypename", []), ("get", [])] :=
  c10_all_false_empty "X" "flag" falseLitTy (by decide) (by decide)
